import Mathlib

/-!
Shallow embedding of the EduAccess moderation workflow and resource lifecycle:
the resource catalog data model (models/Resource.js, models/Download.js,
models/ModerationLog.js), the moderation controller (approveResource,
rejectResource, getPendingResources), the resource controller (getResources,
getResourceById, downloadResource, deleteResource, getRelatedResources),
the school controller (getSchoolResources, getSchoolStatistics) and the
storage drivers (localStorageService.js, s3storageService.js).

Persistent collections are modelled as Lean lists, MongoDB documents as
structures, ObjectIds as naturals and timestamps as naturals.  Each HTTP
handler becomes a pure function from a request and a store snapshot to a
result (an `Except` mirroring the success / error JSON responses) together
with the post-state of the store; an `await` that may be rejected by the
infrastructure is modelled by an explicit success flag where a claim depends
on it.
-/

deriving instance DecidableEq for Except

/-- Whitespace trimming as applied by the express-validator trim sanitizer
and by `notes.trim()` in the controllers. -/
def trimString (s : String) : String :=
  ⟨((s.data.dropWhile Char.isWhitespace).reverse.dropWhile
      Char.isWhitespace).reverse⟩

/-- `resourceStatus` enum of models/Resource.js. -/
inductive Status where
  | pending
  | approved
  | rejected
deriving DecidableEq, Repr

/-- User roles (models/User.js role enum). -/
inductive Role where
  | student
  | teacher
  | admin
  | alumni
deriving DecidableEq, Repr

/-- `moderationActions` enum of models/ModerationLog.js. -/
inductive ModAction where
  | approved
  | rejected
deriving DecidableEq, Repr

/-- Error kinds surfaced by the controllers, following the HTTP responses in
the source: 400 validation responses, 404, 403, the 400
"Resource is not pending moderation" guard (the spec's InvalidTransition) and
the catch-all 500 responses. -/
inductive ApiError where
  | validationError
  | notFound
  | forbidden
  | invalidTransition
  | internalError
deriving DecidableEq, Repr

/-- Error raised by the storage drivers (fs.unlink ENOENT rethrown by
LocalStorageService.deleteFile). -/
inductive StorageErr where
  | enoent
deriving DecidableEq, Repr

/-- The embedded `file` sub-document of a Resource. -/
structure FileMeta where
  originalName : String
  storedName : String
  mimeType : String
  size : Nat
  key : String
deriving DecidableEq, Repr

/-- A document of the Resource collection (models/Resource.js). -/
structure Resource where
  id : Nat
  title : String
  description : String
  file : FileMeta
  uploader : Nat
  school : Nat
  subject : String
  grade : String
  strand : Option String
  tags : List String
  status : Status
  moderationNotes : Option String
  moderatedBy : Option Nat
  moderatedAt : Option Nat
  downloadCount : Nat
  isPublic : Bool
  createdAt : Nat
deriving DecidableEq, Repr

/-- String form of a status, as stored in MongoDB and compared against the
raw `status` query parameter. -/
def statusToString : Status → String
  | .pending => "pending"
  | .approved => "approved"
  | .rejected => "rejected"

/-- A document of the ModerationLog collection (models/ModerationLog.js). -/
structure ModerationLogEntry where
  resource : Nat
  moderator : Nat
  action : ModAction
  notes : Option String
  previousStatus : Status
  newStatus : Status
deriving DecidableEq, Repr

/-- The `validTransitions` table checked by the moderationLogSchema
pre-save middleware: pending to approved or rejected, approved to rejected,
rejected to approved; everything else is refused. -/
def validTransition : Status → Status → Bool
  | .pending, .approved => true
  | .pending, .rejected => true
  | .approved, .rejected => true
  | .rejected, .approved => true
  | _, _ => false

/-- ModerationLog.create: runs the pre-save transition middleware, then the
insert itself; `dbOk` is false when the infrastructure rejects the write.
Either failure propagates to the controller's asyncHandler as a 500. -/
def ModerationLog.create (dbOk : Bool) (logs : List ModerationLogEntry)
    (e : ModerationLogEntry) : Except ApiError (List ModerationLogEntry) :=
  if ¬ validTransition e.previousStatus e.newStatus then .error .internalError
  else if dbOk then .ok (logs ++ [e]) else .error .internalError

/-- Store slice touched by one moderation decision: the resource document
being moderated and the ModerationLog collection. -/
structure ModState where
  resource : Resource
  logs : List ModerationLogEntry
deriving DecidableEq, Repr

/-- Success flags for the two sequential writes of a moderation decision
(`resource.save()` and `ModerationLog.create(...)`). -/
structure WriteEnv where
  resourceSaveOk : Bool
  logCreateOk : Bool
deriving DecidableEq, Repr

/-- Route validation for approve notes:
body('notes').optional().trim().isLength(max 500). -/
def approveNotesValid : Option String → Bool
  | none => true
  | some s => (trimString s).length ≤ 500

/-- Route validation for reject notes,
body('notes').notEmpty().trim().isLength(max 500), combined with the
controller's own guard that the sanitized notes are non-empty after trim. -/
def rejectNotesValid : Option String → Bool
  | none => false
  | some s => ¬ s = "" ∧ (trimString s).length ≤ 500 ∧ ¬ trimString s = ""

/-- approveResource (moderationController): 400 on invalid notes, the
"Resource is not pending moderation" guard, then mutate and save the
resource, then create the log entry.  The two writes are sequential: a log
write that fails after the resource save leaves the saved resource in
place. -/
def approveResource (env : WriteEnv) (now moderatorId : Nat)
    (notes : Option String) (st : ModState) : Except ApiError Unit × ModState :=
  if ¬ approveNotesValid notes then (.error .validationError, st)
  else if st.resource.status ≠ .pending then (.error .invalidTransition, st)
  else
    let tnotes := notes.map trimString
    let modNotes := match tnotes with
      | some s => if s = "" then none else some s
      | none => none
    let r2 := { st.resource with
      status := .approved
      moderatedBy := some moderatorId
      moderatedAt := some now
      moderationNotes := modNotes }
    if ¬ env.resourceSaveOk then (.error .internalError, st)
    else
      match ModerationLog.create env.logCreateOk st.logs
          ⟨st.resource.id, moderatorId, .approved, tnotes,
            st.resource.status, .approved⟩ with
      | .error e => (.error e, { st with resource := r2 })
      | .ok logs2 => (.ok (), { resource := r2, logs := logs2 })

/-- rejectResource (moderationController): 400 on missing or blank notes,
the "Resource is not pending moderation" guard, then mutate and save the
resource, then create the log entry (same sequential-write shape as
approve). -/
def rejectResource (env : WriteEnv) (now moderatorId : Nat)
    (notes : Option String) (st : ModState) : Except ApiError Unit × ModState :=
  if ¬ rejectNotesValid notes then (.error .validationError, st)
  else if st.resource.status ≠ .pending then (.error .invalidTransition, st)
  else
    let t := trimString (notes.getD "")
    let r2 := { st.resource with
      status := .rejected
      moderatedBy := some moderatorId
      moderatedAt := some now
      moderationNotes := some t }
    if ¬ env.resourceSaveOk then (.error .internalError, st)
    else
      match ModerationLog.create env.logCreateOk st.logs
          ⟨st.resource.id, moderatorId, .rejected, some t,
            st.resource.status, .rejected⟩ with
      | .error e => (.error e, { st with resource := r2 })
      | .ok logs2 => (.ok (), { resource := r2, logs := logs2 })

/-- An authenticated principal (req.user). -/
structure Caller where
  id : Nat
  role : Role
deriving DecidableEq, Repr

/-- `req.user?.role === 'admin'` for an optional principal. -/
def callerIsAdmin : Option Caller → Bool
  | some c => c.role == Role.admin
  | none => false

/-- A document of the Download collection (models/Download.js); the
collection carries a unique compound index on (user, resource). -/
structure DownloadRecord where
  user : Nat
  resource : Nat
  ipAddress : String
  userAgent : String
deriving DecidableEq, Repr

/-- Store slice touched by downloadResource: the resource document, the
owning school's cached statistics.totalDownloads and the Download
collection. -/
structure DlState where
  resource : Resource
  schoolTotalDownloads : Nat
  downloads : List DownloadRecord
deriving DecidableEq, Repr

/-- Whether the Download collection already holds a record for this
(user, resource) pair — the duplicate detected by the unique index. -/
def hasRecord (l : List DownloadRecord) (u rid : Nat) : Bool :=
  l.any (fun d => d.user == u && d.resource == rid)

/-- LocalStorageService.getDownloadUrl: the authenticated file route. -/
def getDownloadUrl (key originalName : String) : String :=
  "/api/files/" ++ key ++ "?name=" ++ originalName

/-- downloadResource (resourceController): the approved-or-uploader-or-admin
gate, then inside one try/catch: URL generation (`urlOk` false models a
storage failure there), `resource.incrementDownload()` (which saves the
incremented counter and bumps the school total), then `Download.create`.
A duplicate-key rejection from the unique (user, resource) index lands in
the same catch and becomes the 500 response, after the counter increments
were already committed. -/
def downloadResource (urlOk : Bool) (c : Caller) (ip ua : String)
    (st : DlState) : Except ApiError String × DlState :=
  if st.resource.status ≠ .approved ∧ c.role ≠ .admin ∧
      st.resource.uploader ≠ c.id then
    (.error .forbidden, st)
  else if urlOk = false then (.error .internalError, st)
  else
    let st1 : DlState := { st with
      resource := { st.resource with
        downloadCount := st.resource.downloadCount + 1 }
      schoolTotalDownloads := st.schoolTotalDownloads + 1 }
    if hasRecord st.downloads c.id st.resource.id then
      (.error .internalError, st1)
    else
      (.ok (getDownloadUrl st.resource.file.key st.resource.file.originalName),
        { st1 with downloads := st1.downloads ++ [⟨c.id, st.resource.id, ip, ua⟩] })

/-- The uniqueness invariant enforced by the compound unique index of
models/Download.js: at most one record per (user, resource) pair. -/
def atMostOnePerPair (l : List DownloadRecord) : Prop :=
  ∀ u rid, (l.filter (fun d => d.user == u && d.resource == rid)).length ≤ 1

/-- getResourceById (resourceController) restricted to a found resource:
non-approved resources are answered with 404 (`none`) unless the caller is
an admin. -/
def getResourceById (caller : Option Caller) (r : Resource) : Option Resource :=
  if r.status ≠ .approved ∧ callerIsAdmin caller = false then none
  else some r

/-- Sort key of getRelatedResources: downloadCount descending, then
createdAt descending. -/
def relatedOrder (a b : Resource) : Prop :=
  b.downloadCount < a.downloadCount ∨
    (a.downloadCount = b.downloadCount ∧ b.createdAt ≤ a.createdAt)

instance : DecidableRel relatedOrder := fun a b =>
  inferInstanceAs (Decidable (b.downloadCount < a.downloadCount ∨
    (a.downloadCount = b.downloadCount ∧ b.createdAt ≤ a.createdAt)))

/-- getRelatedResources (resourceController): approved resources other than
the given one sharing subject, grade, a tag or the school, sorted and capped
at 6. -/
def getRelatedResources (catalog : List Resource) (r : Resource) :
    List Resource :=
  ((catalog.filter (fun x => decide (x.id ≠ r.id ∧ x.status = .approved ∧
      (x.subject = r.subject ∨ x.grade = r.grade ∨
        (∃ t ∈ x.tags, t ∈ r.tags) ∨ x.school = r.school)))).insertionSort
    relatedOrder).take 6

/-- createdAt descending, the default sort of the listing endpoints. -/
def createdDesc (a b : Resource) : Prop := b.createdAt ≤ a.createdAt

instance : DecidableRel createdDesc := fun a b =>
  Nat.decLe b.createdAt a.createdAt

/-- getSchoolResources (schoolController): approved resources of the school,
with optional subject and grade filters, newest first, paginated. -/
def getSchoolResources (catalog : List Resource) (schoolId : Nat)
    (subject grade : Option String) (page limit : Nat) : List Resource :=
  let q := catalog.filter (fun x =>
    x.school == schoolId && x.status == Status.approved &&
    (match subject with | some s => x.subject == s | none => true) &&
    (match grade with | some g => x.grade == g | none => true))
  (((q.insertionSort createdDesc).drop ((page - 1) * limit)).take limit)

/-- Query parameters of GET /api/resources after the boundary parse. -/
structure ListParams where
  page : Nat
  limit : Nat
  search : Option String
  subject : Option String
  grade : Option String
  school : Option Nat
  strand : Option String
  tags : Option String
  uploader : Option Nat
  status : Option String
deriving DecidableEq, Repr

/-- The `query.status` field built by getResources: non-admins always get
'approved'; an admin gets the raw status parameter as the filter, or no
status filter at all when none is supplied. -/
def effectiveStatusFilter (caller : Option Caller) (statusParam : Option String) :
    Option String :=
  match caller with
  | some c => if c.role = Role.admin then statusParam else some "approved"
  | none => some "approved"

/-- The document predicate of the getResources find query; `tm` is the
text-index matching semantics of the underlying store ($text / $search). -/
def matchesQuery (tm : String → Resource → Bool) (caller : Option Caller)
    (p : ListParams) (r : Resource) : Bool :=
  (match effectiveStatusFilter caller p.status with
    | some s => statusToString r.status == s
    | none => true) &&
  (match p.search with | some q => tm q r | none => true) &&
  (match p.subject with | some s => r.subject == s | none => true) &&
  (match p.grade with | some g => r.grade == g | none => true) &&
  (match p.school with | some s => r.school == s | none => true) &&
  (match p.strand with | some s => r.strand == some s | none => true) &&
  (match p.tags with
    | some t => r.tags.any (fun tg => (t.splitOn ",").contains tg)
    | none => true) &&
  (match p.uploader with | some u => r.uploader == u | none => true)

/-- getResources (resourceController): filtered catalog, newest first,
paginated. -/
def getResources (tm : String → Resource → Bool) (caller : Option Caller)
    (p : ListParams) (catalog : List Resource) : List Resource :=
  (((catalog.filter (matchesQuery tm caller p)).insertionSort
      createdDesc).drop ((p.page - 1) * p.limit)).take p.limit

/-- createdAt ascending, the sort of the pending moderation queue. -/
def createdAsc (a b : Resource) : Prop := a.createdAt ≤ b.createdAt

instance : DecidableRel createdAsc := fun a b =>
  Nat.decLe a.createdAt b.createdAt

instance : IsTotal Resource createdAsc :=
  ⟨fun a b => Nat.le_total a.createdAt b.createdAt⟩

instance : IsTrans Resource createdAsc :=
  ⟨fun _ _ _ hab hbc => Nat.le_trans hab hbc⟩

/-- getPendingResources (moderationController): pending resources sorted
oldest first (`sort({ createdAt: 1 })`), paginated. -/
def getPendingResources (catalog : List Resource) (page limit : Nat) :
    List Resource :=
  (((catalog.filter (fun r => r.status == Status.pending)).insertionSort
      createdAsc).drop ((page - 1) * limit)).take limit

/-- LocalStorageService.deleteFile: fs.unlink of the keyed file; a missing
file makes unlink reject with ENOENT, which the catch logs and rethrows. -/
def LocalStorageService.deleteFile (files : List String) (key : String) :
    Except StorageErr (List String) :=
  if files.contains key then .ok (files.erase key) else .error .enoent

/-- Store slice touched by deleteResource: the Resource collection, the
stored file keys of the storage driver and the per-school cached
statistics.totalResources counters. -/
structure AppState where
  resources : List Resource
  files : List String
  schoolTotals : Nat → Nat

/-- deleteResource (resourceController): find, permission gate, then inside
one try/catch: storage delete first, then metadata delete, then the school
counter decrement.  A storage-delete rejection lands in the catch and
becomes the 500 response before the metadata delete runs. -/
def deleteResource (c : Caller) (rid : Nat) (st : AppState) :
    Except ApiError Unit × AppState :=
  match st.resources.find? (fun r => r.id == rid) with
  | none => (.error .notFound, st)
  | some r =>
    if r.uploader ≠ c.id ∧ c.role ≠ .admin then (.error .forbidden, st)
    else
      match LocalStorageService.deleteFile st.files r.file.key with
      | .error _ => (.error .internalError, st)
      | .ok files2 =>
        (.ok (), { resources := st.resources.eraseP (fun x => x.id == rid)
                   files := files2
                   schoolTotals := fun s =>
                     if s = r.school then st.schoolTotals s - 1
                     else st.schoolTotals s })

/-- One school's slice of the catalog: its Resource documents and its cached
statistics.totalResources counter. -/
structure CatalogState where
  resources : List Resource
  cachedTotalResources : Nat
deriving Repr

/-- The operations that touch a school's resources and its cached counter:
uploadResource, approveResource, rejectResource and deleteResource
(`storageOk` tells whether the storage delete inside deleteResource
succeeded, since the metadata delete and the decrement run only then). -/
inductive CatalogOp where
  | upload (r : Resource)
  | approve (rid moderatorId now : Nat) (notes : Option String)
  | reject (rid moderatorId now : Nat) (notes : String)
  | delete (rid : Nat) (storageOk : Bool)

/-- The document created by uploadResource: schema defaults give it status
'pending', a zero download counter and no moderation fields. -/
def uploadDoc (r : Resource) : Resource :=
  { r with
    status := .pending
    downloadCount := 0
    moderatedBy := none
    moderatedAt := none
    moderationNotes := none }

/-- Effect of one operation on the school's slice.  upload inserts the
pending document and increments the cached counter; approve and reject only
touch the document's status and moderation fields (guarded on pending, as in
the controllers); delete removes the found document and decrements the
cached counter whatever the document's status, and only when the storage
delete succeeded. -/
def applyOp (st : CatalogState) : CatalogOp → CatalogState
  | .upload r =>
      { resources := st.resources ++ [uploadDoc r]
        cachedTotalResources := st.cachedTotalResources + 1 }
  | .approve rid m now notes =>
      { st with resources := st.resources.map (fun x =>
          if x.id == rid && x.status == Status.pending then
            { x with
              status := .approved
              moderatedBy := some m
              moderatedAt := some now
              moderationNotes := notes }
          else x) }
  | .reject rid m now notes =>
      { st with resources := st.resources.map (fun x =>
          if x.id == rid && x.status == Status.pending then
            { x with
              status := .rejected
              moderatedBy := some m
              moderatedAt := some now
              moderationNotes := some notes }
          else x) }
  | .delete rid ok =>
      match st.resources.find? (fun x => x.id == rid) with
      | none => st
      | some _ =>
        if ok then
          { resources := st.resources.eraseP (fun x => x.id == rid)
            cachedTotalResources := st.cachedTotalResources - 1 }
        else st

/-- Run a sequence of catalog operations. -/
def runOps (st : CatalogState) (ops : List CatalogOp) : CatalogState :=
  ops.foldl applyOp st

/-- A school starts with no resources and a zero cached counter. -/
def initialCatalog : CatalogState := ⟨[], 0⟩

/-- States of a school's slice reachable through the controllers. -/
def ReachableCatalog (st : CatalogState) : Prop :=
  ∃ ops, runOps initialCatalog ops = st

/-- The totalResources figure computed by getSchoolStatistics
(schoolController): a live count of the school's approved resources only. -/
def statsTotalResources (st : CatalogState) : Nat :=
  (st.resources.filter (fun r => r.status == Status.approved)).length

/-- Sample file descriptor. -/
def sampleFile : FileMeta :=
  ⟨"notes.pdf", "file-1.pdf", "application/pdf", 1024, "file-1.pdf"⟩

/-- Sample approved resource (id 1, uploader 10, school 100). -/
def rApproved : Resource :=
  ⟨1, "Algebra", "Basics of algebra", sampleFile, 10, 100, "Math", "G10",
    none, ["algebra"], .approved, none, some 2, some 5, 0, true, 50⟩

/-- Sample pending resource (id 3, uploader 10, school 100). -/
def rPending : Resource :=
  ⟨3, "Geometry", "Intro to geometry", sampleFile, 10, 100, "Math", "G10",
    none, ["geometry"], .pending, none, none, none, 0, true, 60⟩

/-- Sample rejected resource (id 4, uploader 10, school 100). -/
def rRejected : Resource :=
  ⟨4, "Physics", "Kinematics", sampleFile, 10, 100, "Science", "G11",
    none, ["physics"], .rejected, some "blurry scan", some 2, some 6, 0,
    true, 70⟩

/-- Default listing parameters (page 1, limit 12, no filters). -/
def pDefault : ListParams :=
  ⟨1, 12, none, none, none, none, none, none, none, none⟩

/-! ## Helper lemmas -/

theorem approveResource_nonpending (env : WriteEnv) (now m : Nat)
    (notes : Option String) (st : ModState)
    (hst : st.resource.status ≠ .pending)
    (hv : approveNotesValid notes = true) :
    approveResource env now m notes st = (.error .invalidTransition, st) := by
  simp [approveResource, hv, hst]

theorem rejectResource_nonpending (env : WriteEnv) (now m : Nat)
    (notes : Option String) (st : ModState)
    (hst : st.resource.status ≠ .pending)
    (hv : rejectNotesValid notes = true) :
    rejectResource env now m notes st = (.error .invalidTransition, st) := by
  simp [rejectResource, hv, hst]

/-! ## Claims -/

/-- Claim C5: approve or reject on a resource whose status is not pending
fails with InvalidTransition (the 400 "Resource is not pending moderation"
response) and performs no writes: no ModerationLogEntry is created and the
whole store slice, the resource document included, is unchanged — the
post-state equals the pre-state.  (The invocation is assumed to carry notes
that pass the route's input validation, else it would fail even earlier with
ValidationError, still without writes.) -/
theorem moderation_nonpending_invalid_transition_no_writes
    (env : WriteEnv) (now m : Nat) (notesA notesR : Option String)
    (st : ModState) (hst : st.resource.status ≠ .pending)
    (hA : approveNotesValid notesA = true)
    (hR : rejectNotesValid notesR = true) :
    approveResource env now m notesA st = (.error .invalidTransition, st) ∧
    rejectResource env now m notesR st = (.error .invalidTransition, st) :=
  ⟨approveResource_nonpending env now m notesA st hst hA,
   rejectResource_nonpending env now m notesR st hst hR⟩

/-- Witness for C5 at a concrete approved resource. -/
theorem moderation_nonpending_invalid_transition_no_writes_witness :
    approveResource ⟨true, true⟩ 7 2 none ⟨rApproved, []⟩ =
      (.error .invalidTransition, ⟨rApproved, []⟩) ∧
    rejectResource ⟨true, true⟩ 7 2 (some "spam") ⟨rApproved, []⟩ =
      (.error .invalidTransition, ⟨rApproved, []⟩) :=
  moderation_nonpending_invalid_transition_no_writes ⟨true, true⟩ 7 2 none
    (some "spam") ⟨rApproved, []⟩ (by decide) (by decide) (by decide)

/-- Counterexample to claim C2: on a resource whose status is approved the
reject operation does not succeed — it fails with InvalidTransition and the
resource stays approved; likewise approve on a rejected resource fails and
the resource stays rejected. -/
theorem reapprove_rereject_counterexample :
    (rejectResource ⟨true, true⟩ 7 2 (some "bad quality")
        ⟨rApproved, []⟩).1 = .error .invalidTransition ∧
    (rejectResource ⟨true, true⟩ 7 2 (some "bad quality")
        ⟨rApproved, []⟩).2.resource.status = .approved ∧
    (approveResource ⟨true, true⟩ 7 2 none
        ⟨rRejected, []⟩).1 = .error .invalidTransition ∧
    (approveResource ⟨true, true⟩ 7 2 none
        ⟨rRejected, []⟩).2.resource.status = .rejected := by
  decide

/-- Claim C2 as amended: the ModerationLog pre-save transition table does
list approved-to-rejected and rejected-to-approved as legal log transitions,
but the approve and reject operations themselves guard on status == pending,
so re-reject of an approved resource and re-approve of a rejected resource
fail with InvalidTransition and change nothing. -/
theorem reapprove_rereject_amended (env : WriteEnv) (now m : Nat)
    (notesA notesR : Option String) (stA stR : ModState)
    (hA : stA.resource.status = .approved)
    (hR : stR.resource.status = .rejected)
    (hvA : approveNotesValid notesA = true)
    (hvR : rejectNotesValid notesR = true) :
    validTransition .approved .rejected = true ∧
    validTransition .rejected .approved = true ∧
    rejectResource env now m notesR stA = (.error .invalidTransition, stA) ∧
    approveResource env now m notesA stR = (.error .invalidTransition, stR) :=
  ⟨rfl, rfl,
   rejectResource_nonpending env now m notesR stA (by rw [hA]; decide) hvR,
   approveResource_nonpending env now m notesA stR (by rw [hR]; decide) hvA⟩

/-- Witness for the amended C2 at concrete approved and rejected
resources. -/
theorem reapprove_rereject_amended_witness :
    rejectResource ⟨true, true⟩ 7 2 (some "bad quality") ⟨rApproved, []⟩ =
      (.error .invalidTransition, ⟨rApproved, []⟩) ∧
    approveResource ⟨true, true⟩ 7 2 none ⟨rRejected, []⟩ =
      (.error .invalidTransition, ⟨rRejected, []⟩) :=
  ⟨(reapprove_rereject_amended ⟨true, true⟩ 7 2 none (some "bad quality")
      ⟨rApproved, []⟩ ⟨rRejected, []⟩ (by decide) (by decide) (by decide)
      (by decide)).2.2.1,
   (reapprove_rereject_amended ⟨true, true⟩ 7 2 none (some "bad quality")
      ⟨rApproved, []⟩ ⟨rRejected, []⟩ (by decide) (by decide) (by decide)
      (by decide)).2.2.2⟩

/-- Claim C3 (evaluating the code at the failing input): the resource save
and the log insert are sequential, not atomic.  When the ModerationLog
insert fails after resource.save() committed, approve of a pending resource
returns the 500 error yet leaves a committed approved status with no log
entry at all — a status change without its matching ModerationLogEntry. -/
theorem moderation_write_not_atomic :
    (approveResource ⟨true, false⟩ 7 2 (some "ok") ⟨rPending, []⟩).1 =
      .error .internalError ∧
    (approveResource ⟨true, false⟩ 7 2 (some "ok")
        ⟨rPending, []⟩).2.resource.status = .approved ∧
    (approveResource ⟨true, false⟩ 7 2 (some "ok") ⟨rPending, []⟩).2.logs =
      [] := by
  decide

/-- Counterexample to claim C1: with an approved resource and a fresh
Download collection, the first download succeeds and sets downloadCount to 1,
but the second download by the same user hits the unique-index violation and
surfaces it as the 500 error instead of a no-op success, after having already
committed a second increment: downloadCount ends at 2, not 1. -/
theorem download_twice_counterexample :
    (downloadResource true ⟨20, .student⟩ "ip" "ua"
        ⟨rApproved, 0, []⟩).2.resource.downloadCount = 1 ∧
    (downloadResource true ⟨20, .student⟩ "ip" "ua"
        (downloadResource true ⟨20, .student⟩ "ip" "ua"
          ⟨rApproved, 0, []⟩).2).1 = .error .internalError ∧
    (downloadResource true ⟨20, .student⟩ "ip" "ua"
        (downloadResource true ⟨20, .student⟩ "ip" "ua"
          ⟨rApproved, 0, []⟩).2).2.resource.downloadCount = 2 ∧
    (downloadResource true ⟨20, .student⟩ "ip" "ua"
        (downloadResource true ⟨20, .student⟩ "ip" "ua"
          ⟨rApproved, 0, []⟩).2).2.downloads.length = 1 := by
  decide

/-- Appending a record for a pair that has no record yet preserves the
at-most-one-per-pair invariant. -/
theorem atMostOnePerPair_append_fresh (l : List DownloadRecord)
    (x : DownloadRecord) (h : atMostOnePerPair l)
    (hx : l.any (fun d => d.user == x.user && d.resource == x.resource) =
      false) : atMostOnePerPair (l ++ [x]) := by
  intro u rid
  rw [List.filter_append, List.length_append]
  by_cases hp : (x.user == u && x.resource == rid) = true
  · simp only [Bool.and_eq_true, beq_iff_eq] at hp
    obtain ⟨hu, hr⟩ := hp
    subst hu
    subst hr
    have hnil : l.filter
        (fun d => d.user == x.user && d.resource == x.resource) = [] := by
      rw [List.filter_eq_nil_iff]
      intro d hd hcontra
      rw [List.any_eq_false] at hx
      exact hx d hd hcontra
    rw [hnil]
    simp [List.filter_singleton]
  · have h1 : List.filter (fun d => d.user == u && d.resource == rid) [x] =
        [] := by
      simp [List.filter_singleton, hp]
    rw [h1]
    simpa using h u rid

/-- Claim C1 as amended: the unique (user, resource) index does keep at most
one DownloadRecord per pair — every download call preserves that invariant —
but a repeat call for a pair that already has a record is not an idempotent
success: the duplicate-key violation is surfaced to the caller as the 500
error, and resource.downloadCount was already incremented again before the
record insert failed, so the counter grows on every authorized call, not
exactly once per pair. -/
theorem download_idempotency_amended :
    (∀ (ok : Bool) (c : Caller) (ip ua : String) (st : DlState),
        atMostOnePerPair st.downloads →
        atMostOnePerPair (downloadResource ok c ip ua st).2.downloads) ∧
    (∀ (c : Caller) (ip ua : String) (st : DlState),
        ¬(st.resource.status ≠ .approved ∧ c.role ≠ .admin ∧
            st.resource.uploader ≠ c.id) →
        hasRecord st.downloads c.id st.resource.id = true →
        (downloadResource true c ip ua st).1 = .error .internalError ∧
        (downloadResource true c ip ua st).2.resource.downloadCount =
          st.resource.downloadCount + 1 ∧
        (downloadResource true c ip ua st).2.downloads = st.downloads) := by
  constructor
  · intro ok c ip ua st h
    unfold downloadResource
    split
    · exact h
    · split
      · exact h
      · split
        · exact h
        · rename_i hdup
          exact atMostOnePerPair_append_fresh st.downloads
            ⟨c.id, st.resource.id, ip, ua⟩ h (by
              rw [hasRecord] at hdup
              simpa using Bool.of_not_eq_true hdup)
  · intro c ip ua st hauth hrec
    simp [downloadResource, hauth, hrec]

/-- Witness for the amended C1: invariant preservation on a first download,
and the surfaced error on a repeat download of the same pair. -/
theorem download_idempotency_amended_witness :
    atMostOnePerPair (downloadResource true ⟨20, Role.student⟩ "ip" "ua"
        ⟨rApproved, 0, []⟩).2.downloads ∧
    (downloadResource true ⟨20, Role.student⟩ "ip" "ua"
        ⟨rApproved, 1, [⟨20, 1, "ip", "ua"⟩]⟩).1 = .error .internalError :=
  ⟨download_idempotency_amended.1 true ⟨20, .student⟩ "ip" "ua"
      ⟨rApproved, 0, []⟩ (fun u rid => by simp),
   (download_idempotency_amended.2 ⟨20, .student⟩ "ip" "ua"
      ⟨rApproved, 1, [⟨20, 1, "ip", "ua"⟩]⟩ (by decide) (by decide)).1⟩

theorem statusToString_eq_approved (s : Status) :
    statusToString s = "approved" ↔ s = .approved := by
  cases s <;> decide

/-- Counterexample to claim C4: the uploader of a pending resource (user 10,
a teacher) cannot retrieve their own resource by id — getResourceById
answers 404 (none) to them, because only the admin role is exempted. -/
theorem nonapproved_visibility_counterexample :
    rPending.uploader = 10 ∧
    getResourceById (some ⟨10, .teacher⟩) rPending = none := by
  decide

/-- Claim C4 as amended: a non-approved resource is visible through
getResourceById exactly to admin callers — the uploader is refused like
everyone else — and the related-resources and school-resources listing paths
return only approved resources, to every caller, so a non-approved resource
is returned there to no one (admins and uploaders included). -/
theorem nonapproved_visibility_amended (caller : Option Caller)
    (r x : Resource) (catalog : List Resource) (sid page limit : Nat)
    (subj grd : Option String) (h : r.status ≠ .approved) :
    (getResourceById caller r = some r ↔ callerIsAdmin caller = true) ∧
    (x ∈ getRelatedResources catalog r → x.status = .approved) ∧
    (x ∈ getSchoolResources catalog sid subj grd page limit →
        x.status = .approved) := by
  refine ⟨?_, ?_, ?_⟩
  · cases hadm : callerIsAdmin caller
    · simp [getResourceById, h, hadm]
    · simp [getResourceById, hadm]
  · intro hx
    unfold getRelatedResources at hx
    have h1 := (List.take_sublist 6 _).subset hx
    have h2 := (List.perm_insertionSort relatedOrder _).mem_iff.mp h1
    have h3 := List.mem_filter.mp h2
    have h4 := of_decide_eq_true h3.2
    exact h4.2.1
  · intro hx
    unfold getSchoolResources at hx
    have h1 := ((List.take_sublist limit _).trans
      (List.drop_sublist _ _)).subset hx
    have h2 := (List.perm_insertionSort createdDesc _).mem_iff.mp h1
    have h3 := (List.mem_filter.mp h2).2
    simp only [Bool.and_eq_true, beq_iff_eq] at h3
    exact h3.1.1.2

/-- Witness for the amended C4: an admin does retrieve a pending resource by
id. -/
theorem nonapproved_visibility_amended_witness :
    getResourceById (some ⟨2, Role.admin⟩) rPending = some rPending :=
  (nonapproved_visibility_amended (some ⟨2, .admin⟩) rPending rApproved []
      100 1 12 none none (by decide)).1.mpr (by decide)

theorem effectiveStatusFilter_nonadmin (caller : Option Caller)
    (h : callerIsAdmin caller = false) (sp : Option String) :
    effectiveStatusFilter caller sp = some "approved" := by
  cases caller with
  | none => rfl
  | some c =>
    simp only [callerIsAdmin, beq_eq_false_iff_ne, ne_eq] at h
    simp [effectiveStatusFilter, h]

/-- Claim C9: for every caller who is not an admin (unauthenticated callers
included) the resource listing returns only approved resources, and its
result does not depend on the supplied status query parameter: changing only
that parameter leaves the returned list unchanged over the same catalog. -/
theorem listing_nonadmin_approved_only (tm : String → Resource → Bool)
    (caller : Option Caller) (p : ListParams) (catalog : List Resource)
    (h : callerIsAdmin caller = false) :
    (∀ r ∈ getResources tm caller p catalog, r.status = .approved) ∧
    (∀ s, getResources tm caller { p with status := s } catalog =
        getResources tm caller p catalog) := by
  constructor
  · intro r hr
    unfold getResources at hr
    have h1 := ((List.take_sublist p.limit _).trans
      (List.drop_sublist _ _)).subset hr
    have h2 := (List.perm_insertionSort createdDesc _).mem_iff.mp h1
    have h3 := (List.mem_filter.mp h2).2
    unfold matchesQuery at h3
    rw [effectiveStatusFilter_nonadmin caller h] at h3
    simp only [Bool.and_eq_true, beq_iff_eq] at h3
    exact (statusToString_eq_approved r.status).mp h3.1.1.1.1.1.1.1
  · intro s
    unfold getResources
    have hq : matchesQuery tm caller { p with status := s } =
        matchesQuery tm caller p := by
      funext r
      unfold matchesQuery
      rw [effectiveStatusFilter_nonadmin caller h,
        effectiveStatusFilter_nonadmin caller h]
    rw [hq]

/-- Witness for C9: an unauthenticated request with status=pending returns
the same listing as one without the parameter. -/
theorem listing_nonadmin_approved_only_witness :
    getResources (fun _ _ => true) none
        { pDefault with status := some "pending" } [rPending, rApproved] =
      getResources (fun _ _ => true) none pDefault [rPending, rApproved] :=
  (listing_nonadmin_approved_only (fun _ _ => true) none pDefault
      [rPending, rApproved] (by decide)).2 (some "pending")

/-- Counterexample to claim C6: with the resource's stored key absent from
storage, the storage delete fails and deleteResource aborts with the 500
error — the metadata record is NOT removed and the school's cached resource
counter is NOT decremented. -/
theorem delete_storage_failure_counterexample :
    (deleteResource ⟨2, .admin⟩ 1 ⟨[rApproved], [], fun _ => 5⟩).1 =
      .error .internalError ∧
    (deleteResource ⟨2, .admin⟩ 1
        ⟨[rApproved], [], fun _ => 5⟩).2.resources = [rApproved] ∧
    (deleteResource ⟨2, .admin⟩ 1
        ⟨[rApproved], [], fun _ => 5⟩).2.schoolTotals 100 = 5 :=
  ⟨rfl, rfl, rfl⟩

/-- Claim C6 as amended: a storage-delete failure aborts the whole delete —
the 500 error is returned and the metadata record, the file set and the
cached counters are all left untouched; the metadata deletion and the
counter decrement happen only when the storage delete succeeds. -/
theorem delete_storage_failure_amended (c : Caller) (rid : Nat)
    (st : AppState) (r : Resource)
    (hfind : st.resources.find? (fun x => x.id == rid) = some r)
    (hperm : ¬(r.uploader ≠ c.id ∧ c.role ≠ .admin)) :
    (st.files.contains r.file.key = false →
        deleteResource c rid st = (.error .internalError, st)) ∧
    (st.files.contains r.file.key = true →
        (deleteResource c rid st).1 = .ok () ∧
        (deleteResource c rid st).2.resources =
          st.resources.eraseP (fun x => x.id == rid) ∧
        (deleteResource c rid st).2.schoolTotals r.school =
          st.schoolTotals r.school - 1) := by
  constructor
  · intro hk
    have hk2 : r.file.key ∉ st.files := by simpa using hk
    simp [deleteResource, hfind, hperm, LocalStorageService.deleteFile, hk2]
  · intro hk
    have hk2 : r.file.key ∈ st.files := by simpa using hk
    simp [deleteResource, hfind, hperm, LocalStorageService.deleteFile, hk2]

/-- Witness for the amended C6 at the concrete failing state. -/
theorem delete_storage_failure_amended_witness :
    deleteResource ⟨2, Role.admin⟩ 1 ⟨[rApproved], [], fun _ => 5⟩ =
      (.error .internalError, ⟨[rApproved], [], fun _ => 5⟩) :=
  (delete_storage_failure_amended ⟨2, .admin⟩ 1 ⟨[rApproved], [], fun _ => 5⟩
      rApproved (by rfl) (by decide)).1 (by rfl)

/-- Counterexample to claim C7: deleting a key whose bytes are absent does
not return successfully — LocalStorageService.deleteFile rethrows the ENOENT
failure. -/
theorem storage_delete_absent_counterexample :
    LocalStorageService.deleteFile [] "file-1.pdf" = .error .enoent := rfl

/-- Claim C7 as amended: the local storage driver's delete is not idempotent.
Deleting a present key succeeds and removes it, but deleting an absent key
logs and RETHROWS the error instead of returning success with only a logged
warning — so the second delete of an already-deleted key fails even though
the store is already in the file-gone state. -/
theorem storage_delete_absent_amended (files : List String) (key : String) :
    (files.contains key = false →
        LocalStorageService.deleteFile files key = .error .enoent) ∧
    (files.contains key = true →
        LocalStorageService.deleteFile files key = .ok (files.erase key)) := by
  constructor
  · intro hk
    have hk2 : key ∉ files := by simpa using hk
    simp [LocalStorageService.deleteFile, hk2]
  · intro hk
    have hk2 : key ∈ files := by simpa using hk
    simp [LocalStorageService.deleteFile, hk2]

/-- Witness for the amended C7: first delete of a present key succeeds,
delete of an absent key errors. -/
theorem storage_delete_absent_amended_witness :
    LocalStorageService.deleteFile ["file-1.pdf"] "file-1.pdf" =
      .ok (["file-1.pdf"].erase "file-1.pdf") ∧
    LocalStorageService.deleteFile [] "file-2.pdf" = .error .enoent :=
  ⟨(storage_delete_absent_amended ["file-1.pdf"] "file-1.pdf").2 (by rfl),
   (storage_delete_absent_amended [] "file-2.pdf").1 (by rfl)⟩

/-- Claim C8: the pending-moderation listing is a FIFO queue — in the
returned page, every pair of resources is ordered by non-decreasing
createdAt, so a later upload never precedes an earlier pending one. -/
theorem pending_queue_oldest_first (catalog : List Resource)
    (page limit : Nat) :
    List.Pairwise createdAsc (getPendingResources catalog page limit) := by
  have hs : List.Sorted createdAsc
      ((catalog.filter (fun r => r.status == Status.pending)).insertionSort
        createdAsc) := List.sorted_insertionSort createdAsc _
  exact hs.sublist ((List.take_sublist _ _).trans (List.drop_sublist _ _))

theorem applyOp_cached_eq_length (st : CatalogState)
    (h : st.cachedTotalResources = st.resources.length) (op : CatalogOp) :
    (applyOp st op).cachedTotalResources = (applyOp st op).resources.length := by
  cases op with
  | upload r => simp [applyOp, h]
  | approve rid m now notes => simp [applyOp, h]
  | reject rid m now notes => simp [applyOp, h]
  | delete rid ok =>
    simp only [applyOp]
    cases hf : st.resources.find? (fun x => x.id == rid) with
    | none =>
      simp only [hf]
      exact h
    | some r =>
      cases ok with
      | false =>
        simp only [hf, if_neg]
        simpa using h
      | true =>
        have hmem := List.mem_of_find?_eq_some hf
        have hp := List.find?_some hf
        simp only [hf, if_pos]
        rw [List.length_eraseP_of_mem hmem hp, h]

theorem runOps_cached_eq_length (ops : List CatalogOp) (st : CatalogState)
    (h : st.cachedTotalResources = st.resources.length) :
    (runOps st ops).cachedTotalResources =
      (runOps st ops).resources.length := by
  induction ops generalizing st with
  | nil => exact h
  | cons op ops ih =>
    simp only [runOps, List.foldl_cons] at *
    exact ih (applyOp st op) (applyOp_cached_eq_length st h op)

/-- Claim C10: the cached statistics.totalResources counter is incremented
at upload time, while the inserted document is still pending; it is
decremented at delete whatever the document's status (so across the
reachable states it counts resources of every status); the statistics
endpoint instead recomputes totalResources as the count of approved
resources only; hence in every reachable school state holding at least one
non-approved resource the cached counter and the recomputed total differ. -/
theorem cached_counter_vs_stats (st : CatalogState)
    (h : ReachableCatalog st) :
    (∀ r, (applyOp st (.upload r)).cachedTotalResources =
        st.cachedTotalResources + 1 ∧ (uploadDoc r).status = .pending ∧
        (applyOp st (.upload r)).resources = st.resources ++ [uploadDoc r]) ∧
    (∀ rid r, st.resources.find? (fun x => x.id == rid) = some r →
        (applyOp st (.delete rid true)).cachedTotalResources =
          st.cachedTotalResources - 1) ∧
    ((∃ r ∈ st.resources, r.status ≠ .approved) →
        st.cachedTotalResources ≠ statsTotalResources st) := by
  refine ⟨fun r => ⟨rfl, rfl, rfl⟩, ?_, ?_⟩
  · intro rid r hfind
    simp [applyOp, hfind]
  · rintro ⟨r, hr, hrs⟩
    obtain ⟨ops, rfl⟩ := h
    rw [runOps_cached_eq_length ops initialCatalog rfl]
    have hlt : ((runOps initialCatalog ops).resources.filter
        (fun x => x.status == Status.approved)).length <
        (runOps initialCatalog ops).resources.length :=
      List.length_filter_lt_length_iff_exists.mpr ⟨r, hr, by simp [hrs]⟩
    exact ne_of_gt hlt

/-- Witness for C10: after one upload the cached counter is 1 while the
recomputed approved total is 0. -/
theorem cached_counter_vs_stats_witness :
    (runOps initialCatalog [CatalogOp.upload rPending]).cachedTotalResources ≠
      statsTotalResources (runOps initialCatalog [CatalogOp.upload rPending]) :=
  (cached_counter_vs_stats (runOps initialCatalog [CatalogOp.upload rPending])
      ⟨[CatalogOp.upload rPending], rfl⟩).2.2
    ⟨uploadDoc rPending, by decide, by decide⟩
